import Mathlib

/-!
# Object storage gateway (server/gcs.go)

A shallow embedding of the three operations of server/gcs.go,

* uploadGCS    (gcs.go lines 18-40),
* deleteGCS    (gcs.go lines 43-62),
* getSignedUrl (gcs.go lines 65-88),

over an executable test double of the libraries they call (cloud.google.com/go/storage,
golang.org/x/oauth2/google, io, io/ioutil, os, time, context, fmt).

The double has two parts.  A value of type Fake is the fixed behaviour of the outside
world during one call: the process environment, the file system, the clock, the key
parser, the URL signer and a fault plan saying which storage requests fail and with which
cause.  A value of type State is what a call can change: the objects held by the buckets
and the chronological trace of every library step performed.  Every operation is a
function from a State to a result and a State; Go deferred calls are run explicitly, in
last-in first-out order, on every path that leaves the function after the defer statement.
-/

namespace FaxMachine

/-! ## Data model -/

/-- Byte strings: payloads, file contents, stored objects and key material. -/
abbrev Bytes := List UInt8

/-- A time.Duration, in nanoseconds. -/
abbrev Duration := Int

/-- The constant time.Second. -/
def Second : Duration := 1000000000

/-- The constant time.Minute. -/
def Minute : Duration := 60 * Second

/-- A context.Context, reduced to the timeout it carries: none for a context without
deadline, some d for a deadline d nanoseconds after the context was made. -/
structure Context where
  timeout : Option Duration
deriving DecidableEq, Repr

/-- The context returned by context.Background(): it has no deadline. -/
def Background : Context := ⟨none⟩

/-- The context returned by context.WithTimeout(parent, d): its deadline is d after now,
or the deadline of the parent when that one is earlier. -/
def WithTimeout (parent : Context) (d : Duration) : Context :=
  match parent.timeout with
  | none => ⟨some d⟩
  | some p => ⟨some (min p d)⟩

/-- The context of the storage requests of uploadGCS and deleteGCS: the background
context bounded by the timeout of gcs.go lines 27 and 52. -/
def actCtx : Context := WithTimeout Background (Second * 50)

/-- The error of a Read on the payload stream: io.EOF or anything else. -/
inductive ReadErr where
  | EOF
  | other (msg : String)
deriving DecidableEq, Repr

/-- The payload stream behind the *multipart.File argument, given by the results of its
future Read calls in order: each Read delivers some bytes and possibly an error.  When the
list is used up a Read delivers no byte and io.EOF. -/
abbrev Reader := List (Bytes × Option ReadErr)

/-- The bytes a reader delivers up to its first error (io.EOF included). -/
def Reader.payload : Reader → Bytes
  | [] => []
  | (p, none) :: rest => p ++ Reader.payload rest
  | (p, some _) :: _ => p

/-- The first error other than io.EOF a reader reports, if it reports one before io.EOF. -/
def Reader.failure : Reader → Option String
  | [] => none
  | (_, none) :: rest => Reader.failure rest
  | (_, some ReadErr.EOF) :: _ => none
  | (_, some (ReadErr.other msg)) :: _ => some msg

/-- The fields of jwt.Config that getSignedUrl reads. -/
structure JWTConfig where
  Email : String
  PrivateKey : Bytes
deriving DecidableEq, Repr

/-- The type storage.SigningScheme. -/
inductive SigningScheme where
  | SigningSchemeDefault
  | SigningSchemeV2
  | SigningSchemeV4
deriving DecidableEq, Repr

/-- The fields of storage.SignedURLOptions that getSignedUrl sets; every other field keeps
its zero value.  Expires is a time in nanoseconds. -/
structure SignedURLOptions where
  Scheme : SigningScheme
  Method : String
  GoogleAccessID : String
  PrivateKey : Bytes
  Expires : Int
deriving DecidableEq, Repr

/-- One library step performed by an operation: a call into a library, with its
arguments and its outcome (none: success, some cause: the error reported).  Whether the
library reaches the service during the call is not recorded. -/
inductive Event where
  | newClient (ctx : Context) (err : Option String)
  | clientClose
  | cancel
  | newWriter (bucket object : String) (ctx : Context)
  | read (n : Nat) (err : Option ReadErr)
  | write (bucket object : String) (ctx : Context) (n : Nat) (err : Option String)
  | writerClose (bucket object : String) (ctx : Context) (err : Option String)
  | delete (bucket object : String) (ctx : Context) (err : Option String)
  | readFile (path : String) (err : Option String)
  | parseKey (err : Option String)
  | signedURL (bucket object : String) (opts : SignedURLOptions) (err : Option String)
deriving DecidableEq, Repr

/-- The cause of a failed step; none for a step that succeeded (a Read ending in io.EOF
is a success). -/
def Event.cause : Event → Option String
  | .newClient _ err => err
  | .read _ (some (ReadErr.other msg)) => some msg
  | .write _ _ _ _ err => err
  | .writerClose _ _ _ err => err
  | .delete _ _ _ err => err
  | .readFile _ err => err
  | .parseKey err => err
  | .signedURL _ _ _ err => err
  | _ => none

/-- The context a storage step runs under; none for steps that take no context. -/
def Event.ctx : Event → Option Context
  | .newClient ctx _ => some ctx
  | .newWriter _ _ ctx => some ctx
  | .write _ _ ctx _ _ => some ctx
  | .writerClose _ _ ctx _ => some ctx
  | .delete _ _ ctx _ => some ctx
  | _ => none

/-- The step that establishes the storage connection. -/
def Event.isConnect : Event → Bool
  | .newClient _ _ => true
  | _ => false

/-- A step of the copy loop onto the writer of the given bucket, object and context: a
Read of the payload or a Write to that writer. -/
def Event.isCopyStep (b o : String) (ctx : Context) : Event → Bool
  | .read _ _ => true
  | .write b2 o2 c2 _ _ => b2 = b ∧ o2 = o ∧ c2 = ctx
  | _ => false

/-- The fixed behaviour of the outside world during one call. -/
structure Fake where
  /-- The process environment (os.LookupEnv). -/
  env : String → Option String
  /-- The file system, as seen by ioutil.ReadFile. -/
  files : String → Except String Bytes
  /-- The reading of time.Now(), in nanoseconds. -/
  clock : Int
  /-- The function google.JWTConfigFromJSON. -/
  parseKey : Bytes → Except String JWTConfig
  /-- The function storage.SignedURL. -/
  signer : String → String → SignedURLOptions → Except String String
  /-- The error of storage.NewClient, if it fails. -/
  connectFault : Option String
  /-- The error of a Write of the given chunk to the writer of bucket and object that
  already holds the given number of bytes, if it fails. -/
  writeFault : String → String → Nat → Bytes → Option String
  /-- The error of committing the given content to bucket and object, if it fails. -/
  commitFault : String → String → Bytes → Option String
  /-- The error of obj.Delete for bucket and object other than not-found, if any: one the
  library raises itself before any request (an invalid handle) or one the service reports. -/
  deleteFault : String → String → Option String
  /-- The Unicode tables of strconv.IsPrint for runes above U+00FF. -/
  printTable : Nat → Bool

/-- What a call can change: the objects of the buckets (bucket name, then object name) and
the trace of the steps performed so far, oldest first. -/
structure State where
  objects : String → String → Option Bytes
  trace : List Event

/-- Append one step to the trace. -/
def State.log (s : State) (e : Event) : State :=
  { s with trace := s.trace ++ [e] }

/-- The steps performed since an earlier state whose trace had the given length. -/
def State.since (s : State) (n : Nat) : List Event :=
  s.trace.drop n

/-! ## The library double -/

/-- The function os.Getenv: the value of the variable, or the empty string when unset. -/
def Getenv (fk : Fake) (key : String) : String :=
  (fk.env key).getD ""

/-- A storage.Client handle. -/
inductive Client where
  | mk
deriving DecidableEq, Repr

/-- The function storage.NewClient(ctx): it fails when the fault plan says so. -/
def NewClient (fk : Fake) (ctx : Context) (s : State) : Except String Client × State :=
  match fk.connectFault with
  | some e => (.error e, s.log (.newClient ctx (some e)))
  | none => (.ok Client.mk, s.log (.newClient ctx none))

/-- The method client.Close(). -/
def Client.Close (_c : Client) (s : State) : State :=
  s.log .clientClose

/-- The cancel function returned by context.WithTimeout. -/
def cancel (s : State) : State :=
  s.log .cancel

/-- A handle client.Bucket(bucket).Object(object). -/
structure ObjectHandle where
  bucket : String
  object : String
deriving DecidableEq, Repr

/-- The method client.Bucket(name).Object(name): it only builds a handle. -/
def Client.Object (_c : Client) (bucketName fileName : String) : ObjectHandle :=
  ⟨bucketName, fileName⟩

/-- A storage.Writer: the object it writes to, its context and the bytes accepted so
far, which reach the bucket only when the writer is closed. -/
structure Writer where
  bucket : String
  object : String
  ctx : Context
  buf : Bytes
deriving DecidableEq, Repr

/-- The method obj.NewWriter(ctx): it opens a write stream holding no byte. -/
def ObjectHandle.NewWriter (o : ObjectHandle) (ctx : Context) (s : State) : Writer × State :=
  (⟨o.bucket, o.object, ctx, []⟩, s.log (.newWriter o.bucket o.object ctx))

/-- The method w.Write(p): the chunk is accepted whole, or the write fails with the
cause of the fault plan and nothing is accepted.  (An io.Writer reports an error whenever
it accepts fewer bytes than it was given.) -/
def Writer.Write (fk : Fake) (wr : Writer) (p : Bytes) (s : State) :
    Option String × Writer × State :=
  match fk.writeFault wr.bucket wr.object wr.buf.length p with
  | some e => (some e, wr, s.log (.write wr.bucket wr.object wr.ctx p.length (some e)))
  | none =>
    (none, { wr with buf := wr.buf ++ p },
      s.log (.write wr.bucket wr.object wr.ctx p.length none))

/-- The method w.Close(): it commits the accepted bytes as the new content of the
object, replacing any earlier content, unless the fault plan makes the commit fail. -/
def Writer.Close (fk : Fake) (wr : Writer) (s : State) : Option String × State :=
  match fk.commitFault wr.bucket wr.object wr.buf with
  | some e => (some e, s.log (.writerClose wr.bucket wr.object wr.ctx (some e)))
  | none =>
    (none,
      { objects := fun b o =>
          if b = wr.bucket ∧ o = wr.object then some wr.buf else s.objects b o,
        trace := s.trace ++ [.writerClose wr.bucket wr.object wr.ctx none] })

/-- The check obj.validate() that obj.Delete of the storage library runs before any
request, for names that are valid UTF-8: an empty bucket name and an empty object name are
rejected. -/
def validateHandle (bucket object : String) : Option String :=
  if bucket = "" then some "storage: bucket name is empty"
  else if object = "" then some "storage: object name is empty"
  else none

/-- The message of storage.ErrObjectNotExist. -/
def ErrObjectNotExist : String := "storage: object doesn't exist"

/-- The method obj.Delete(ctx): it fails with the cause of the fault plan (the handle is
rejected by the library, or the service reports an error), or with
storage.ErrObjectNotExist when the bucket holds no such object; otherwise the object is
removed.  The step logged is the call of obj.Delete with its outcome. -/
def ObjectHandle.Delete (fk : Fake) (o : ObjectHandle) (ctx : Context) (s : State) :
    Option String × State :=
  match fk.deleteFault o.bucket o.object with
  | some e => (some e, s.log (.delete o.bucket o.object ctx (some e)))
  | none =>
    match s.objects o.bucket o.object with
    | none =>
      (some ErrObjectNotExist, s.log (.delete o.bucket o.object ctx (some ErrObjectNotExist)))
    | some _ =>
      (none,
        { objects := fun b n =>
            if b = o.bucket ∧ n = o.object then none else s.objects b n,
          trace := s.trace ++ [.delete o.bucket o.object ctx none] })

/-- The function io.Copy(dst, src) (the loop of io.copyBuffer): read a chunk, write it
when it is not empty, stop at the first write error, at io.EOF (success) or at the first
other read error.  The result is the error returned, or none for nil. -/
def ioCopy (fk : Fake) (dst : Writer) (src : Reader) (s : State) :
    Option String × Writer × State :=
  match src with
  | [] => (none, dst, s.log (.read 0 (some ReadErr.EOF)))
  | (p, er) :: rest =>
    let s1 := s.log (.read p.length er)
    if 0 < p.length then
      match Writer.Write fk dst p s1 with
      | (some ew, dst1, s2) => (some ew, dst1, s2)
      | (none, dst1, s2) =>
        match er with
        | none => ioCopy fk dst1 rest s2
        | some ReadErr.EOF => (none, dst1, s2)
        | some (ReadErr.other msg) => (some msg, dst1, s2)
    else
      match er with
      | none => ioCopy fk dst rest s1
      | some ReadErr.EOF => (none, dst, s1)
      | some (ReadErr.other msg) => (some msg, dst, s1)

/-- The function ioutil.ReadFile. -/
def ReadFile (fk : Fake) (path : String) (s : State) : Except String Bytes × State :=
  match fk.files path with
  | .error e => (.error e, s.log (.readFile path (some e)))
  | .ok b => (.ok b, s.log (.readFile path none))

/-- The function google.JWTConfigFromJSON. -/
def JWTConfigFromJSON (fk : Fake) (jsonKey : Bytes) (s : State) :
    Except String JWTConfig × State :=
  match fk.parseKey jsonKey with
  | .error e => (.error e, s.log (.parseKey (some e)))
  | .ok c => (.ok c, s.log (.parseKey none))

/-- The function storage.SignedURL. -/
def SignedURL (fk : Fake) (bucket object : String) (opts : SignedURLOptions) (s : State) :
    Except String String × State :=
  match fk.signer bucket object opts with
  | .error e => (.error e, s.log (.signedURL bucket object opts (some e)))
  | .ok u => (.ok u, s.log (.signedURL bucket object opts none))

/-- The call time.Now().Add(d). -/
def NowAdd (fk : Fake) (d : Duration) : Int :=
  fk.clock + d

/-! ## The verb %q of fmt (strconv.Quote) -/

/-- The double quote character. -/
def dquote : Char := Char.ofNat 34

/-- The backslash character. -/
def bslash : Char := Char.ofNat 92

/-- The digit table lowerhex of strconv. -/
def lowerhex : List Char := "0123456789abcdef".toList

/-- One hexadecimal digit of a rune: bits shift to shift+3. -/
def hexAt (r shift : Nat) : Char :=
  lowerhex.getD ((r >>> shift) % 16) '0'

/-- The function strconv.IsPrint: explicit below U+0100, by table above. -/
def IsPrint (fk : Fake) (r : Nat) : Bool :=
  if r ≤ 0xFF then
    if 0x20 ≤ r ∧ r ≤ 0x7E then true
    else if 0xA1 ≤ r ∧ r ≤ 0xFF then r != 0xAD
    else false
  else fk.printTable r

/-- The function strconv.appendEscapedRune for Quote (quote character the double quote,
neither ASCII-only nor graphic-only). -/
def appendEscapedRune (fk : Fake) (r : Char) : List Char :=
  if r = dquote ∨ r = bslash then [bslash, r]
  else if IsPrint fk r.toNat then [r]
  else if r.toNat = 7 then [bslash, 'a']
  else if r.toNat = 8 then [bslash, 'b']
  else if r.toNat = 12 then [bslash, 'f']
  else if r.toNat = 10 then [bslash, 'n']
  else if r.toNat = 13 then [bslash, 'r']
  else if r.toNat = 9 then [bslash, 't']
  else if r.toNat = 11 then [bslash, 'v']
  else if r.toNat < 32 ∨ r.toNat = 127 then [bslash, 'x', hexAt r.toNat 4, hexAt r.toNat 0]
  else if r.toNat < 65536 then
    [bslash, 'u', hexAt r.toNat 12, hexAt r.toNat 8, hexAt r.toNat 4, hexAt r.toNat 0]
  else
    [bslash, 'U', hexAt r.toNat 28, hexAt r.toNat 24, hexAt r.toNat 20, hexAt r.toNat 16,
      hexAt r.toNat 12, hexAt r.toNat 8, hexAt r.toNat 4, hexAt r.toNat 0]

/-- The function strconv.Quote, which the verb %q of fmt applies to a string: the
escaped runes between two double quotes.  Names are sequences of Unicode characters, so
the branch of Quote for bytes that are not valid UTF-8 does not arise. -/
def Quote (fk : Fake) (s : String) : String :=
  ⟨[dquote] ++ (s.data.map (appendEscapedRune fk)).flatten ++ [dquote]⟩

/-! ## The operations of gcs.go -/

/-- The function uploadGCS (gcs.go lines 18-40).  The result is the error message, or
none for nil.  The two deferred calls run on every path after line 28, cancel first. -/
def uploadGCS (fk : Fake) (dataToWrite : Reader) (fileName : String) (s : State) :
    Option String × State :=
  let ctx := Background
  match NewClient fk ctx s with
  | (.error err, s1) => (some ("storage.NewClient: " ++ err), s1)
  | (.ok client, s1) =>
    let ctx := WithTimeout ctx (Second * 50)
    let bucketName := Getenv fk "BUCKET_NAME"
    let (w, s2) := (client.Object bucketName fileName).NewWriter ctx s1
    match ioCopy fk w dataToWrite s2 with
    | (some err, _, s3) => (some ("io.Copy: " ++ err), client.Close (cancel s3))
    | (none, w, s3) =>
      match w.Close fk s3 with
      | (some err, s4) => (some ("Writer.Close: " ++ err), client.Close (cancel s4))
      | (none, s4) => (none, client.Close (cancel s4))

/-- The function deleteGCS (gcs.go lines 43-62).  The result is the error message, or
none for nil. -/
def deleteGCS (fk : Fake) (fileName : String) (s : State) : Option String × State :=
  let ctx := Background
  match NewClient fk ctx s with
  | (.error err, s1) => (some ("storage.NewClient: " ++ err), s1)
  | (.ok client, s1) =>
    let ctx := WithTimeout ctx (Second * 50)
    let bucketName := Getenv fk "BUCKET_NAME"
    let obj := client.Object bucketName fileName
    match obj.Delete fk ctx s1 with
    | (some err, s2) =>
      (some ("Object(" ++ Quote fk fileName ++ ").Delete: " ++ err), client.Close (cancel s2))
    | (none, s2) => (none, client.Close (cancel s2))

/-- The function getSignedUrl (gcs.go lines 65-88).  The result is the pair of the URL
and the error message (none for nil). -/
def getSignedUrl (fk : Fake) (fileName : String) (s : State) :
    (String × Option String) × State :=
  let bucketName := Getenv fk "BUCKET_NAME"
  let credentials := Getenv fk "GCS_CREDENTIALS"
  match ReadFile fk credentials s with
  | (.error err, s1) => (("", some ("ioutil.ReadFile: " ++ err)), s1)
  | (.ok jsonKey, s1) =>
    match JWTConfigFromJSON fk jsonKey s1 with
    | (.error err, s2) => (("", some ("google.JWTConfigFromJSON: " ++ err)), s2)
    | (.ok conf, s2) =>
      let opts : SignedURLOptions :=
        { Scheme := SigningScheme.SigningSchemeV4,
          Method := "GET",
          GoogleAccessID := conf.Email,
          PrivateKey := conf.PrivateKey,
          Expires := NowAdd fk (10 * Minute) }
      match SignedURL fk bucketName fileName opts s2 with
      | (.error err, s3) => (("", some ("storage.SignedURL: " ++ err)), s3)
      | (.ok signedUrl, s3) => ((signedUrl, none), s3)

/-- The write stream uploadGCS opens (gcs.go line 32): for the object of the given name
in the bucket named by BUCKET_NAME, under the context of the storage requests, holding no
byte yet. -/
def uploadWriter (fk : Fake) (fileName : String) : Writer :=
  ⟨Getenv fk "BUCKET_NAME", fileName, actCtx, []⟩

/-- The options getSignedUrl hands to the signer for the given parsed key. -/
def signOpts (fk : Fake) (conf : JWTConfig) : SignedURLOptions :=
  { Scheme := SigningScheme.SigningSchemeV4,
    Method := "GET",
    GoogleAccessID := conf.Email,
    PrivateKey := conf.PrivateKey,
    Expires := fk.clock + 600 * Second }

/-! ## Concrete fakes -/

/-- A fake in which no request fails: BUCKET_NAME is faxes, GCS_CREDENTIALS is key.json,
a file that parses to a key of fax@example.com; the signer returns a URL built from the
bucket and the object; obj.Delete rejects only the handles the library rejects. -/
def fakeOK : Fake :=
  { env := fun k =>
      if k = "BUCKET_NAME" then some "faxes"
      else if k = "GCS_CREDENTIALS" then some "key.json" else none,
    files := fun p => if p = "key.json" then .ok [123, 125] else .error "no such file",
    clock := 1700000000000000000,
    parseKey := fun _ => .ok ⟨"fax@example.com", [1, 2, 3]⟩,
    signer := fun b o _ => .ok ("https://storage.googleapis.com/" ++ b ++ "/" ++ o),
    connectFault := none,
    writeFault := fun _ _ _ _ => none,
    commitFault := fun _ _ _ => none,
    deleteFault := validateHandle,
    printTable := fun _ => false }

/-- The fake fakeOK with BUCKET_NAME unset; GCS_CREDENTIALS is still key.json.  The
service holds no bucket with the empty name: a commit to it fails, and obj.Delete rejects
the handle as in fakeOK. -/
def fakeNoBucket : Fake :=
  { fakeOK with
    env := fun k => if k = "GCS_CREDENTIALS" then some "key.json" else none,
    commitFault := fun b _ _ => if b = "" then some "googleapi: Error 404: Not Found" else none }

/-- The fake fakeOK in which every delete request of a valid handle times out. -/
def fakeDeleteTimeout : Fake :=
  { fakeOK with
    deleteFault := fun b o =>
      match validateHandle b o with
      | some e => some e
      | none => some "context deadline exceeded" }

/-- The fake fakeOK in which the connection cannot be established. -/
def fakeConnectDown : Fake :=
  { fakeOK with connectFault := some "dial tcp: connection refused" }

/-- The fake fakeOK in which every write to a write stream times out. -/
def fakeWriteDown : Fake :=
  { fakeOK with writeFault := fun _ _ _ _ => some "context deadline exceeded" }

/-- The fake fakeOK in which every commit is refused by the service. -/
def fakeCommitDown : Fake :=
  { fakeOK with commitFault := fun _ _ _ => some "googleapi: Error 403: Forbidden" }

/-- A state with empty buckets and an empty trace. -/
def emptyState : State := { objects := fun _ _ => none, trace := [] }

/-! ## The copy loop and the shape of the operations -/

/-- The copy loop only adds steps to the trace, all of them reads of the payload or
writes to the destination writer; it leaves the objects and the destination of the writer
alone; and it returns no error exactly when none of its steps failed, otherwise the cause
of one of its failed steps. -/
theorem ioCopy_spec (fk : Fake) (src : Reader) :
    ∀ (dst : Writer) (s : State), ∃ evs : List Event,
      (ioCopy fk dst src s).2.2 = ⟨s.objects, s.trace ++ evs⟩ ∧
      (∀ e ∈ evs, e.isCopyStep dst.bucket dst.object dst.ctx = true) ∧
      (ioCopy fk dst src s).2.1.bucket = dst.bucket ∧
      (ioCopy fk dst src s).2.1.object = dst.object ∧
      (ioCopy fk dst src s).2.1.ctx = dst.ctx ∧
      (((ioCopy fk dst src s).1 = none ∧ ∀ e ∈ evs, e.cause = none) ∨
        ∃ c, (ioCopy fk dst src s).1 = some c ∧ ∃ e ∈ evs, e.cause = some c) := by
  induction src with
  | nil =>
    intro dst s
    refine ⟨[.read 0 (some ReadErr.EOF)], ?_⟩
    simp [ioCopy, State.log, Event.isCopyStep, Event.cause]
  | cons hd rest ih =>
    intro dst s
    obtain ⟨p, er⟩ := hd
    unfold ioCopy
    by_cases hp : 0 < p.length
    · simp only [hp, if_true]
      unfold Writer.Write
      cases hw : fk.writeFault dst.bucket dst.object dst.buf.length p with
      | some ew =>
        refine ⟨[.read p.length er, .write dst.bucket dst.object dst.ctx p.length (some ew)], ?_⟩
        simp [State.log, Event.isCopyStep, Event.cause]
      | none =>
        cases er with
        | none =>
          obtain ⟨evs, h1, h2, h3, h4, h5, h6⟩ := ih { dst with buf := dst.buf ++ p }
            ((s.log (.read p.length none)).log (.write dst.bucket dst.object dst.ctx p.length none))
          refine ⟨[.read p.length none, .write dst.bucket dst.object dst.ctx p.length none] ++ evs, ?_⟩
          simp only [] at h1 h2 h3 h4 h5 h6 ⊢
          refine ⟨?_, ?_, h3, h4, h5, ?_⟩
          · rw [h1]; simp [State.log]
          · intro e he
            simp at he
            rcases he with rfl | rfl | he
            · simp [Event.isCopyStep]
            · simp [Event.isCopyStep]
            · exact h2 e he
          · rcases h6 with ⟨h6a, h6b⟩ | ⟨c, h6a, e, he, hc⟩
            · left
              refine ⟨h6a, ?_⟩
              intro e he
              simp at he
              rcases he with rfl | rfl | he
              · simp [Event.cause]
              · simp [Event.cause]
              · exact h6b e he
            · right
              exact ⟨c, h6a, e, by simp [he], hc⟩
        | some r =>
          cases r with
          | EOF =>
            refine ⟨[.read p.length (some ReadErr.EOF), .write dst.bucket dst.object dst.ctx p.length none], ?_⟩
            simp [State.log, Event.isCopyStep, Event.cause]
          | other msg =>
            refine ⟨[.read p.length (some (ReadErr.other msg)), .write dst.bucket dst.object dst.ctx p.length none], ?_⟩
            simp [State.log, Event.isCopyStep, Event.cause]
    · simp only [hp, if_false]
      cases er with
      | none =>
        obtain ⟨evs, h1, h2, h3, h4, h5, h6⟩ := ih dst (s.log (.read p.length none))
        refine ⟨[.read p.length none] ++ evs, ?_⟩
        simp only [] at h1 h2 h3 h4 h5 h6 ⊢
        refine ⟨?_, ?_, h3, h4, h5, ?_⟩
        · rw [h1]; simp [State.log]
        · intro e he
          simp at he
          rcases he with rfl | he
          · simp [Event.isCopyStep]
          · exact h2 e he
        · rcases h6 with ⟨h6a, h6b⟩ | ⟨c, h6a, e, he, hc⟩
          · left
            refine ⟨h6a, ?_⟩
            intro e he
            simp at he
            rcases he with rfl | he
            · simp [Event.cause]
            · exact h6b e he
          · right
            exact ⟨c, h6a, e, by simp [he], hc⟩
      | some r =>
        cases r with
        | EOF =>
          refine ⟨[.read p.length (some ReadErr.EOF)], ?_⟩
          simp [State.log, Event.isCopyStep, Event.cause]
        | other msg =>
          refine ⟨[.read p.length (some (ReadErr.other msg))], ?_⟩
          simp [State.log, Event.isCopyStep, Event.cause]

/-- When no write to the destination can fail and the payload is read without error, the
copy loop returns no error and the writer has accepted the whole payload, in order. -/
theorem ioCopy_payload (fk : Fake) (src : Reader) :
    ∀ (dst : Writer) (s : State),
      (∀ k p, fk.writeFault dst.bucket dst.object k p = none) →
      Reader.failure src = none →
      (ioCopy fk dst src s).1 = none ∧
        (ioCopy fk dst src s).2.1.buf = dst.buf ++ Reader.payload src := by
  induction src with
  | nil =>
    intro dst s _ _
    simp [ioCopy, Reader.payload]
  | cons hd rest ih =>
    intro dst s hw hf
    obtain ⟨p, er⟩ := hd
    unfold ioCopy
    by_cases hp : 0 < p.length
    · simp only [hp, if_true]
      unfold Writer.Write
      rw [hw]
      cases er with
      | none =>
        have := ih { dst with buf := dst.buf ++ p }
          ((s.log (.read p.length none)).log (.write dst.bucket dst.object dst.ctx p.length none))
          hw (by simpa [Reader.failure] using hf)
        simpa [Reader.payload, List.append_assoc] using this
      | some r =>
        cases r with
        | EOF => simp [Reader.payload]
        | other msg => simp [Reader.failure] at hf
    · simp only [hp, if_false]
      have hp0 : p = [] := by
        cases p with
        | nil => rfl
        | cons a t => simp at hp
      subst hp0
      cases er with
      | none =>
        have := ih dst (s.log (.read 0 none)) hw (by simpa [Reader.failure] using hf)
        simpa [Reader.payload] using this
      | some r =>
        cases r with
        | EOF => simp [Reader.payload]
        | other msg => simp [Reader.failure] at hf

/-- An upload whose connection fails: the error names storage.NewClient and the
connection attempt is the only step. -/
theorem uploadGCS_connect_fail (fk : Fake) (src : Reader) (N : String) (s : State) (c : String)
    (h : fk.connectFault = some c) :
    uploadGCS fk src N s =
      (some ("storage.NewClient: " ++ c), ⟨s.objects, s.trace ++ [.newClient Background (some c)]⟩) := by
  simp [uploadGCS, NewClient, h, State.log]

/-- An upload whose connection succeeds, in terms of the result of the copy loop. -/
theorem uploadGCS_unfold (fk : Fake) (src : Reader) (N : String) (s : State)
    (h : fk.connectFault = none) :
    uploadGCS fk src N s =
      match ioCopy fk ⟨Getenv fk "BUCKET_NAME", N, actCtx, []⟩ src
          ⟨s.objects, s.trace ++
            [.newClient Background none, .newWriter (Getenv fk "BUCKET_NAME") N actCtx]⟩ with
      | (some err, _, s3) =>
        (some ("io.Copy: " ++ err), ⟨s3.objects, s3.trace ++ [.cancel, .clientClose]⟩)
      | (none, w, s3) =>
        match fk.commitFault w.bucket w.object w.buf with
        | some err =>
          (some ("Writer.Close: " ++ err),
            ⟨s3.objects, s3.trace ++ [.writerClose w.bucket w.object w.ctx (some err), .cancel, .clientClose]⟩)
        | none =>
          (none,
            ⟨fun b o => if b = w.bucket ∧ o = w.object then some w.buf else s3.objects b o,
              s3.trace ++ [.writerClose w.bucket w.object w.ctx none, .cancel, .clientClose]⟩) := by
  simp only [uploadGCS, NewClient, h, Client.Object, ObjectHandle.NewWriter, actCtx, State.log,
    List.append_assoc, List.singleton_append]
  generalize ioCopy fk _ src _ = r
  obtain ⟨r1, w, s3⟩ := r
  cases r1 with
  | some err => simp [Client.Close, cancel, State.log]
  | none =>
    simp only [Writer.Close]
    cases fk.commitFault w.bucket w.object w.buf <;> simp [Client.Close, cancel, State.log]

/-- The two shapes of an upload whose connection succeeds: the copy fails and the steps
are connect, open, the copy steps, cancel, close; or the copy succeeds and the commit
follows the copy steps. -/
theorem uploadGCS_shape (fk : Fake) (src : Reader) (N : String) (s : State)
    (h : fk.connectFault = none) :
    ∃ evs : List Event,
      (∀ e ∈ evs, e.isCopyStep (Getenv fk "BUCKET_NAME") N actCtx = true) ∧
      ((∃ c, (∃ e ∈ evs, e.cause = some c) ∧
          (uploadGCS fk src N s).1 = some ("io.Copy: " ++ c) ∧
          (uploadGCS fk src N s).2 = ⟨s.objects, s.trace ++
            ([.newClient Background none, .newWriter (Getenv fk "BUCKET_NAME") N actCtx] ++ evs ++
              [.cancel, .clientClose])⟩) ∨
       ((∀ e ∈ evs, e.cause = none) ∧
          ∃ err : Option String,
            (uploadGCS fk src N s).1 = err.map (fun c => "Writer.Close: " ++ c) ∧
            (uploadGCS fk src N s).2.trace = s.trace ++
              ([.newClient Background none, .newWriter (Getenv fk "BUCKET_NAME") N actCtx] ++ evs ++
                [.writerClose (Getenv fk "BUCKET_NAME") N actCtx err, .cancel, .clientClose]))) := by
  rw [uploadGCS_unfold fk src N s h]
  obtain ⟨evs, h1, h2, h3, h4, h5, h6⟩ := ioCopy_spec fk src
    ⟨Getenv fk "BUCKET_NAME", N, actCtx, []⟩
    ⟨s.objects, s.trace ++
      [.newClient Background none, .newWriter (Getenv fk "BUCKET_NAME") N actCtx]⟩
  refine ⟨evs, h2, ?_⟩
  generalize ioCopy fk ⟨Getenv fk "BUCKET_NAME", N, actCtx, []⟩ src
    ⟨s.objects, s.trace ++
      [.newClient Background none, .newWriter (Getenv fk "BUCKET_NAME") N actCtx]⟩ = r at *
  obtain ⟨r1, ⟨wb, wo, wc, wbuf⟩, s3⟩ := r
  simp only [] at h1 h3 h4 h5 h6
  subst h1 h3 h4 h5
  rcases h6 with ⟨h6a, h6b⟩ | ⟨c, h6a, h6b⟩
  · right
    subst h6a
    refine ⟨h6b, ?_⟩
    cases hc : fk.commitFault (Getenv fk "BUCKET_NAME") wo wbuf with
    | some ce => exact ⟨some ce, by simp [hc]⟩
    | none => exact ⟨none, by simp [hc]⟩
  · left
    subst h6a
    exact ⟨c, h6b, by simp⟩

/-- A delete whose connection fails: the error names storage.NewClient and the
connection attempt is the only step. -/
theorem deleteGCS_connect_fail (fk : Fake) (N : String) (s : State) (c : String)
    (h : fk.connectFault = some c) :
    deleteGCS fk N s =
      (some ("storage.NewClient: " ++ c), ⟨s.objects, s.trace ++ [.newClient Background (some c)]⟩) := by
  simp [deleteGCS, NewClient, h, State.log]

/-- A delete whose connection succeeds, by cases on the fault plan and on the presence
of the object. -/
theorem deleteGCS_unfold (fk : Fake) (N : String) (s : State) (h : fk.connectFault = none) :
    deleteGCS fk N s =
      match fk.deleteFault (Getenv fk "BUCKET_NAME") N with
      | some err =>
        (some ("Object(" ++ Quote fk N ++ ").Delete: " ++ err),
          ⟨s.objects, s.trace ++ [.newClient Background none,
            .delete (Getenv fk "BUCKET_NAME") N actCtx (some err), .cancel, .clientClose]⟩)
      | none =>
        match s.objects (Getenv fk "BUCKET_NAME") N with
        | none =>
          (some ("Object(" ++ Quote fk N ++ ").Delete: " ++ ErrObjectNotExist),
            ⟨s.objects, s.trace ++ [.newClient Background none,
              .delete (Getenv fk "BUCKET_NAME") N actCtx (some ErrObjectNotExist),
              .cancel, .clientClose]⟩)
        | some _ =>
          (none,
            ⟨fun b n => if b = Getenv fk "BUCKET_NAME" ∧ n = N then none else s.objects b n,
              s.trace ++ [.newClient Background none,
                .delete (Getenv fk "BUCKET_NAME") N actCtx none, .cancel, .clientClose]⟩) := by
  simp only [deleteGCS, NewClient, h, Client.Object, ObjectHandle.Delete, actCtx, State.log]
  cases fk.deleteFault (Getenv fk "BUCKET_NAME") N with
  | some err => simp [Client.Close, cancel, State.log]
  | none =>
    cases s.objects (Getenv fk "BUCKET_NAME") N <;> simp [Client.Close, cancel, State.log]

/-- The shape of a delete whose connection succeeds: connect, the delete request,
cancel, close; the error returned is that of the delete request, wrapped. -/
theorem deleteGCS_shape (fk : Fake) (N : String) (s : State) (h : fk.connectFault = none) :
    ∃ err : Option String,
      (deleteGCS fk N s).1 = err.map (fun c => "Object(" ++ Quote fk N ++ ").Delete: " ++ c) ∧
      (deleteGCS fk N s).2.trace = s.trace ++ [.newClient Background none,
        .delete (Getenv fk "BUCKET_NAME") N actCtx err, .cancel, .clientClose] ∧
      (s.objects (Getenv fk "BUCKET_NAME") N = none → err.isSome) := by
  rw [deleteGCS_unfold fk N s h]
  cases fk.deleteFault (Getenv fk "BUCKET_NAME") N with
  | some err => exact ⟨some err, by simp⟩
  | none =>
    cases ho : s.objects (Getenv fk "BUCKET_NAME") N with
    | none => exact ⟨some ErrObjectNotExist, by simp⟩
    | some v => exact ⟨none, by simp⟩

/-- An upload in which nothing fails stores the payload under the object name. -/
theorem uploadGCS_success (fk : Fake) (src : Reader) (N : String) (s : State)
    (hconn : fk.connectFault = none)
    (hread : Reader.failure src = none)
    (hwrite : ∀ k p, fk.writeFault (Getenv fk "BUCKET_NAME") N k p = none)
    (hcommit : ∀ content, fk.commitFault (Getenv fk "BUCKET_NAME") N content = none) :
    (uploadGCS fk src N s).1 = none ∧
      (uploadGCS fk src N s).2.objects (Getenv fk "BUCKET_NAME") N = some (Reader.payload src) := by
  rw [uploadGCS_unfold fk src N s hconn]
  obtain ⟨evs, h1, _, h3, h4, _, _⟩ := ioCopy_spec fk src
    ⟨Getenv fk "BUCKET_NAME", N, actCtx, []⟩
    ⟨s.objects, s.trace ++
      [.newClient Background none, .newWriter (Getenv fk "BUCKET_NAME") N actCtx]⟩
  obtain ⟨h7, h8⟩ := ioCopy_payload fk src ⟨Getenv fk "BUCKET_NAME", N, actCtx, []⟩
    ⟨s.objects, s.trace ++
      [.newClient Background none, .newWriter (Getenv fk "BUCKET_NAME") N actCtx]⟩ hwrite hread
  generalize ioCopy fk ⟨Getenv fk "BUCKET_NAME", N, actCtx, []⟩ src
    ⟨s.objects, s.trace ++
      [.newClient Background none, .newWriter (Getenv fk "BUCKET_NAME") N actCtx]⟩ = r at *
  obtain ⟨r1, ⟨wb, wo, wc, wbuf⟩, s3⟩ := r
  simp only [List.nil_append] at h1 h3 h4 h7 h8
  subst h7 h3 h4 h8
  simp [hcommit]

/-- A delete in which nothing fails removes an object that is present. -/
theorem deleteGCS_success (fk : Fake) (N : String) (s : State) (v : Bytes)
    (hconn : fk.connectFault = none)
    (hdel : fk.deleteFault (Getenv fk "BUCKET_NAME") N = none)
    (hobj : s.objects (Getenv fk "BUCKET_NAME") N = some v) :
    (deleteGCS fk N s).1 = none ∧
      (deleteGCS fk N s).2.objects (Getenv fk "BUCKET_NAME") N = none := by
  rw [deleteGCS_unfold fk N s hconn, hdel]
  simp [hobj]

/-- The steps since a state are what was appended to its trace. -/
theorem since_of_trace (r s : State) (l : List Event) (h : r.trace = s.trace ++ l) :
    r.since s.trace.length = l := by
  simp [State.since, h]

/-- No step of the copy loop is a commit. -/
theorem copyStep_ne_writerClose (b o : String) (ctx : Context) (evs : List Event)
    (h : ∀ e ∈ evs, e.isCopyStep b o ctx = true) (b2 o2 : String) (c2 : Context)
    (err : Option String) : Event.writerClose b2 o2 c2 err ∉ evs := by
  intro hm
  have := h _ hm
  simp [Event.isCopyStep] at this

/-- Signed-URL generation when the credentials file cannot be read. -/
theorem getSignedUrl_read_fail (fk : Fake) (N : String) (s : State) (c : String)
    (h : fk.files (Getenv fk "GCS_CREDENTIALS") = .error c) :
    getSignedUrl fk N s =
      (("", some ("ioutil.ReadFile: " ++ c)),
        ⟨s.objects, s.trace ++ [.readFile (Getenv fk "GCS_CREDENTIALS") (some c)]⟩) := by
  simp [getSignedUrl, ReadFile, h, State.log]

/-- Signed-URL generation when the credentials file does not parse. -/
theorem getSignedUrl_parse_fail (fk : Fake) (N : String) (s : State) (key : Bytes) (c : String)
    (h : fk.files (Getenv fk "GCS_CREDENTIALS") = .ok key) (hp : fk.parseKey key = .error c) :
    getSignedUrl fk N s =
      (("", some ("google.JWTConfigFromJSON: " ++ c)),
        ⟨s.objects, s.trace ++
          [.readFile (Getenv fk "GCS_CREDENTIALS") none, .parseKey (some c)]⟩) := by
  simp [getSignedUrl, ReadFile, h, JWTConfigFromJSON, hp, State.log]

/-- Signed-URL generation once the credentials are read and parsed, by cases on the
result of the signer. -/
theorem getSignedUrl_sign (fk : Fake) (N : String) (s : State) (key : Bytes) (conf : JWTConfig)
    (h : fk.files (Getenv fk "GCS_CREDENTIALS") = .ok key) (hp : fk.parseKey key = .ok conf) :
    getSignedUrl fk N s =
      match fk.signer (Getenv fk "BUCKET_NAME") N (signOpts fk conf) with
      | .error e =>
        (("", some ("storage.SignedURL: " ++ e)),
          ⟨s.objects, s.trace ++ [.readFile (Getenv fk "GCS_CREDENTIALS") none, .parseKey none,
            .signedURL (Getenv fk "BUCKET_NAME") N (signOpts fk conf) (some e)]⟩)
      | .ok url =>
        ((url, none),
          ⟨s.objects, s.trace ++ [.readFile (Getenv fk "GCS_CREDENTIALS") none, .parseKey none,
            .signedURL (Getenv fk "BUCKET_NAME") N (signOpts fk conf) none]⟩) := by
  have hdur : NowAdd fk (10 * Minute) = fk.clock + 600 * Second := by
    simp only [NowAdd, Minute, Second]; norm_num
  simp only [getSignedUrl, ReadFile, h, JWTConfigFromJSON, hp, SignedURL, hdur, signOpts]
  generalize fk.signer _ N _ = r
  cases r <;> simp [State.log]

/-- No step of the copy loop closes the connection. -/
theorem copyStep_ne_clientClose (b o : String) (ctx : Context) (evs : List Event)
    (h : ∀ e ∈ evs, e.isCopyStep b o ctx = true) : Event.clientClose ∉ evs := by
  intro hm
  have := h _ hm
  simp [Event.isCopyStep] at this

/-- A step of the copy loop that takes a context takes that of the writer, and is not
the connection step. -/
theorem copyStep_ctx (b o : String) (ctx : Context) (e : Event)
    (h : e.isCopyStep b o ctx = true) (c : Context) (hc : e.ctx = some c) :
    c = ctx ∧ e.isConnect = false := by
  cases e <;> simp_all [Event.isCopyStep, Event.ctx, Event.isConnect]

/-- The context of the storage requests has a deadline of 50 seconds. -/
theorem actCtx_timeout : actCtx.timeout = some (50 * Second) := by
  simp [actCtx, WithTimeout, Background, mul_comm]

/-- Printable characters other than the double quote and the backslash are quoted as
themselves. -/
theorem quote_plain (fk : Fake) (cs : List Char)
    (h : ∀ ch ∈ cs, IsPrint fk ch.toNat = true ∧ ch ≠ dquote ∧ ch ≠ bslash) :
    (cs.map (appendEscapedRune fk)).flatten = cs := by
  induction cs with
  | nil => rfl
  | cons a t ih =>
    obtain ⟨h1, h2, h3⟩ := h a (by simp)
    have ht := ih (fun ch hch => h ch (by simp [hch]))
    simp [appendEscapedRune, h1, h2, h3, ht]

/-- The error returned by the copy loop and the writer it leaves do not depend on the
state the loop starts from. -/
theorem ioCopy_state_indep (fk : Fake) (src : Reader) :
    ∀ (dst : Writer) (s t : State),
      (ioCopy fk dst src s).1 = (ioCopy fk dst src t).1 ∧
        (ioCopy fk dst src s).2.1 = (ioCopy fk dst src t).2.1 := by
  induction src with
  | nil => intro dst s t; simp [ioCopy]
  | cons hd rest ih =>
    intro dst s t
    obtain ⟨p, er⟩ := hd
    unfold ioCopy
    by_cases hp : 0 < p.length
    · simp only [hp, if_true]
      unfold Writer.Write
      cases fk.writeFault dst.bucket dst.object dst.buf.length p with
      | some ew => simp
      | none =>
        cases er with
        | none => exact ih _ _ _
        | some r => cases r <;> simp
    · simp only [hp, if_false]
      cases er with
      | none => exact ih _ _ _
      | some r => cases r <;> simp

/-- When no write to the destination can fail, the copy loop returns the first read error
of the payload other than io.EOF, if there is one. -/
theorem ioCopy_read_failure (fk : Fake) (src : Reader) :
    ∀ (dst : Writer) (s : State),
      (∀ k p, fk.writeFault dst.bucket dst.object k p = none) →
      (ioCopy fk dst src s).1 = Reader.failure src := by
  induction src with
  | nil => intro dst s _; simp [ioCopy, Reader.failure]
  | cons hd rest ih =>
    intro dst s hw
    obtain ⟨p, er⟩ := hd
    unfold ioCopy
    by_cases hp : 0 < p.length
    · simp only [hp, if_true]
      unfold Writer.Write
      rw [hw]
      cases er with
      | none => simpa [Reader.failure] using ih { dst with buf := dst.buf ++ p } _ hw
      | some r => cases r <;> simp [Reader.failure]
    · simp only [hp, if_false]
      cases er with
      | none => simpa [Reader.failure] using ih dst _ hw
      | some r => cases r <;> simp [Reader.failure]

/-- A copy whose first read delivers bytes that the destination refuses returns the error
of that write. -/
theorem ioCopy_first_write_fails (fk : Fake) (dst : Writer) (p : Bytes) (er : Option ReadErr)
    (rest : Reader) (s : State) (c : String) (hp : 0 < p.length)
    (hw : fk.writeFault dst.bucket dst.object dst.buf.length p = some c) :
    (ioCopy fk dst ((p, er) :: rest) s).1 = some c := by
  unfold ioCopy
  simp only [hp, if_true]
  unfold Writer.Write
  rw [hw]

/-- The error returned by an upload whose connection succeeds: that of the copy, or else
that of the commit of what the copy delivered, each under the name of its phase. -/
theorem uploadGCS_result (fk : Fake) (src : Reader) (N : String) (s : State)
    (h : fk.connectFault = none) :
    (uploadGCS fk src N s).1 =
      match (ioCopy fk ⟨Getenv fk "BUCKET_NAME", N, actCtx, []⟩ src s).1 with
      | some c => some ("io.Copy: " ++ c)
      | none =>
        (fk.commitFault (Getenv fk "BUCKET_NAME") N
          (ioCopy fk ⟨Getenv fk "BUCKET_NAME", N, actCtx, []⟩ src s).2.1.buf).map
          fun c => "Writer.Close: " ++ c := by
  rw [uploadGCS_unfold fk src N s h]
  obtain ⟨e1, e2⟩ := ioCopy_state_indep fk src ⟨Getenv fk "BUCKET_NAME", N, actCtx, []⟩ s
    ⟨s.objects, s.trace ++
      [.newClient Background none, .newWriter (Getenv fk "BUCKET_NAME") N actCtx]⟩
  obtain ⟨_, _, _, h3, h4, _, _⟩ := ioCopy_spec fk src
    ⟨Getenv fk "BUCKET_NAME", N, actCtx, []⟩
    ⟨s.objects, s.trace ++
      [.newClient Background none, .newWriter (Getenv fk "BUCKET_NAME") N actCtx]⟩
  rw [e1, e2]
  generalize ioCopy fk ⟨Getenv fk "BUCKET_NAME", N, actCtx, []⟩ src
    ⟨s.objects, s.trace ++
      [.newClient Background none, .newWriter (Getenv fk "BUCKET_NAME") N actCtx]⟩ = r at *
  obtain ⟨r1, ⟨wb, wo, wc, wbuf⟩, s3⟩ := r
  simp only [] at h3 h4
  subst h3 h4
  cases r1 with
  | some c => simp
  | none =>
    simp only []
    cases fk.commitFault (Getenv fk "BUCKET_NAME") wo wbuf <;> simp

/-- The steps of an upload and its result: an error is returned exactly when a step
failed; a failed connect is the only step and is named in the error; a failed copy step is
named in the error and no commit follows; a failed commit is named in the error. -/
theorem uploadGCS_failed_steps (fk : Fake) (src : Reader) (N : String)
    (s : State) :
    ((uploadGCS fk src N s).1.isSome ↔
        ∃ e ∈ (uploadGCS fk src N s).2.since s.trace.length, e.cause.isSome) ∧
    (∀ ctx c, Event.newClient ctx (some c) ∈ (uploadGCS fk src N s).2.since s.trace.length →
        (uploadGCS fk src N s).1 = some ("storage.NewClient: " ++ c) ∧
        (uploadGCS fk src N s).2.since s.trace.length = [.newClient Background (some c)]) ∧
    ((∃ e ∈ (uploadGCS fk src N s).2.since s.trace.length,
          e.isCopyStep (Getenv fk "BUCKET_NAME") N actCtx = true ∧ e.cause.isSome) →
        (∃ c, (∃ e ∈ (uploadGCS fk src N s).2.since s.trace.length,
                e.isCopyStep (Getenv fk "BUCKET_NAME") N actCtx = true ∧ e.cause = some c) ∧
              (uploadGCS fk src N s).1 = some ("io.Copy: " ++ c)) ∧
        ∀ b o ctx err,
          Event.writerClose b o ctx err ∉ (uploadGCS fk src N s).2.since s.trace.length) ∧
    (∀ b o ctx c,
        Event.writerClose b o ctx (some c) ∈ (uploadGCS fk src N s).2.since s.trace.length →
        (uploadGCS fk src N s).1 = some ("Writer.Close: " ++ c)) := by
  cases hconn : fk.connectFault with
  | some c0 =>
    rw [uploadGCS_connect_fail fk src N s c0 hconn]
    simp [State.since, Event.cause, Event.isCopyStep]
  | none =>
    obtain ⟨evs, hcopy, hcase⟩ := uploadGCS_shape fk src N s hconn
    have hnw := copyStep_ne_writerClose _ _ _ evs hcopy
    rcases hcase with ⟨c, ⟨e0, he0, hc0⟩, hres, hst⟩ | ⟨hnone, err, hres, htr⟩
    · have hsince := since_of_trace _ s _ (congrArg State.trace hst)
      simp only [] at hsince
      rw [hsince, hres]
      refine ⟨?_, ?_, ?_, ?_⟩
      · simp only [Option.isSome_some, true_iff]
        exact ⟨e0, by simp [he0], by simp [hc0]⟩
      · intro ctx c1 hm
        simp at hm
        have := hcopy _ hm
        simp [Event.isCopyStep] at this
      · intro _
        refine ⟨⟨c, ⟨e0, by simp [he0], hcopy e0 he0, hc0⟩, rfl⟩, ?_⟩
        intro b o ctx err hm
        simp at hm
        exact hnw b o ctx err hm
      · intro b o ctx c1 hm
        simp at hm
        exact absurd hm (hnw b o ctx (some c1))
    · have hsince := since_of_trace _ s _ htr
      rw [hsince, hres]
      refine ⟨?_, ?_, ?_, ?_⟩
      · constructor
        · intro h
          cases err with
          | none => simp at h
          | some ce =>
            exact ⟨.writerClose (Getenv fk "BUCKET_NAME") N actCtx (some ce), by simp,
              by simp [Event.cause]⟩
        · rintro ⟨e, he, hc⟩
          simp at he
          rcases he with rfl | rfl | he | rfl | rfl | rfl
          · simp [Event.cause] at hc
          · simp [Event.cause] at hc
          · simp [hnone e he] at hc
          · cases err with
            | none => simp [Event.cause] at hc
            | some ce => simp
          · simp [Event.cause] at hc
          · simp [Event.cause] at hc
      · intro ctx c1 hm
        simp at hm
        have := hcopy _ hm
        simp [Event.isCopyStep] at this
      · rintro ⟨e, he, hstep, hc⟩
        simp at he
        rcases he with rfl | rfl | he | rfl | rfl | rfl
        · simp [Event.isCopyStep] at hstep
        · simp [Event.isCopyStep] at hstep
        · simp [hnone e he] at hc
        · simp [Event.isCopyStep] at hstep
        · simp [Event.isCopyStep] at hstep
        · simp [Event.isCopyStep] at hstep
      · intro b o ctx c1 hm
        simp at hm
        rcases hm with hm | ⟨_, _, _, rfl⟩
        · exact absurd hm (hnw b o ctx (some c1))
        · simp

/-- An upload whose connection succeeds and whose copy fails: the error names io.Copy, no
commit is attempted and the objects are left as they were. -/
theorem uploadGCS_copy_fail (fk : Fake) (src : Reader) (N : String) (s : State) (c : String)
    (h : fk.connectFault = none)
    (hc : (ioCopy fk (uploadWriter fk N) src s).1 = some c) :
    (uploadGCS fk src N s).1 = some ("io.Copy: " ++ c) ∧
    (∀ b o ctx err,
      Event.writerClose b o ctx err ∉ (uploadGCS fk src N s).2.since s.trace.length) ∧
    (uploadGCS fk src N s).2.objects = s.objects := by
  rw [uploadGCS_unfold fk src N s h]
  obtain ⟨e1, _⟩ := ioCopy_state_indep fk src (uploadWriter fk N) s
    ⟨s.objects, s.trace ++
      [.newClient Background none, .newWriter (Getenv fk "BUCKET_NAME") N actCtx]⟩
  obtain ⟨evs, h1, h2, _, _, _, _⟩ := ioCopy_spec fk src (uploadWriter fk N)
    ⟨s.objects, s.trace ++
      [.newClient Background none, .newWriter (Getenv fk "BUCKET_NAME") N actCtx]⟩
  have hnw := copyStep_ne_writerClose _ _ _ evs h2
  rw [e1] at hc
  simp only [uploadWriter] at hc h1 hnw
  generalize ioCopy fk ⟨Getenv fk "BUCKET_NAME", N, actCtx, []⟩ src
    ⟨s.objects, s.trace ++
      [.newClient Background none, .newWriter (Getenv fk "BUCKET_NAME") N actCtx]⟩ = r at *
  obtain ⟨r1, w, s3⟩ := r
  simp only [] at hc h1
  subst hc h1
  refine ⟨rfl, ?_, rfl⟩
  intro b o ctx err hm
  simp [State.since] at hm
  exact hnw b o ctx err hm

/-- A delete whose connection succeeds and whose call of obj.Delete fails by the fault
plan: the error is that cause under the name of the object in quoted form, the steps are
connect, the call, cancel, close, and the objects are left as they were. -/
theorem deleteGCS_fault (fk : Fake) (N : String) (s : State) (c : String)
    (h : fk.connectFault = none) (hd : fk.deleteFault (Getenv fk "BUCKET_NAME") N = some c) :
    deleteGCS fk N s =
      (some ("Object(" ++ Quote fk N ++ ").Delete: " ++ c),
        ⟨s.objects, s.trace ++ [.newClient Background none,
          .delete (Getenv fk "BUCKET_NAME") N actCtx (some c), .cancel, .clientClose]⟩) := by
  rw [deleteGCS_unfold fk N s h, hd]

/-! ## The claims -/

/-- C1 (upload content fidelity).  Against a fake bucket whose connect, write and commit
steps succeed, and for a payload stream that delivers its bytes without a read error,
uploadGCS returns no error and afterwards the object named N of the bucket named by
BUCKET_NAME holds exactly the bytes of the payload, whatever it held before. -/
theorem uploadGCS_content_fidelity (fk : Fake) (src : Reader) (N : String) (s : State)
    (hconn : fk.connectFault = none)
    (hread : Reader.failure src = none)
    (hwrite : ∀ k p, fk.writeFault (Getenv fk "BUCKET_NAME") N k p = none)
    (hcommit : ∀ content, fk.commitFault (Getenv fk "BUCKET_NAME") N content = none) :
    (uploadGCS fk src N s).1 = none ∧
      (uploadGCS fk src N s).2.objects (Getenv fk "BUCKET_NAME") N = some (Reader.payload src) :=
  uploadGCS_success fk src N s hconn hread hwrite hcommit

/-- Witness of C1: a payload of three bytes read in two chunks, stored as fax.pdf. -/
theorem uploadGCS_content_fidelity_witness :
    (uploadGCS fakeOK [([1, 2], none), ([3], some ReadErr.EOF)] "fax.pdf" emptyState).1 = none ∧
      (uploadGCS fakeOK [([1, 2], none), ([3], some ReadErr.EOF)] "fax.pdf" emptyState).2.objects
        (Getenv fakeOK "BUCKET_NAME") "fax.pdf" =
        some (Reader.payload [([1, 2], none), ([3], some ReadErr.EOF)]) :=
  uploadGCS_content_fidelity fakeOK [([1, 2], none), ([3], some ReadErr.EOF)] "fax.pdf" emptyState
    rfl rfl (fun _ _ => rfl) (fun _ => rfl)

/-- C2 (upload/delete round trip).  Against a fake bucket in which no step fails, for
every object name and every payload read without error (in particular every valid name and
non-empty payload), uploadGCS followed by deleteGCS both return no error and the bucket
named by BUCKET_NAME afterwards holds no object of that name. -/
theorem upload_delete_round_trip (fk : Fake) (src : Reader) (N : String) (s : State)
    (hconn : fk.connectFault = none)
    (hread : Reader.failure src = none)
    (hwrite : ∀ k p, fk.writeFault (Getenv fk "BUCKET_NAME") N k p = none)
    (hcommit : ∀ content, fk.commitFault (Getenv fk "BUCKET_NAME") N content = none)
    (hdel : fk.deleteFault (Getenv fk "BUCKET_NAME") N = none) :
    (uploadGCS fk src N s).1 = none ∧
      (deleteGCS fk N (uploadGCS fk src N s).2).1 = none ∧
      (deleteGCS fk N (uploadGCS fk src N s).2).2.objects (Getenv fk "BUCKET_NAME") N = none :=
  ⟨(uploadGCS_success fk src N s hconn hread hwrite hcommit).1,
    deleteGCS_success fk N _ _ hconn hdel (uploadGCS_success fk src N s hconn hread hwrite hcommit).2⟩

/-- Witness of C2: the payload of three bytes uploaded as fax.pdf and deleted again. -/
theorem upload_delete_round_trip_witness :
    (uploadGCS fakeOK [([7, 8, 9], none)] "fax.pdf" emptyState).1 = none ∧
      (deleteGCS fakeOK "fax.pdf" (uploadGCS fakeOK [([7, 8, 9], none)] "fax.pdf" emptyState).2).1
        = none ∧
      (deleteGCS fakeOK "fax.pdf"
        (uploadGCS fakeOK [([7, 8, 9], none)] "fax.pdf" emptyState).2).2.objects
          (Getenv fakeOK "BUCKET_NAME") "fax.pdf" = none :=
  upload_delete_round_trip fakeOK [([7, 8, 9], none)] "fax.pdf" emptyState
    rfl rfl (fun _ _ => rfl) (fun _ => rfl) rfl

/-- C3, counterexample.  With BUCKET_NAME unset, uploadGCS opens the connection and a
write stream for the bucket named by the empty string; deleteGCS opens the connection and
calls obj.Delete, whose error that the bucket name is empty it returns under the name of
the object; getSignedUrl calls the signer with the empty bucket name and returns its URL
without any error. -/
theorem missing_bucket_counterexample :
    Getenv fakeNoBucket "BUCKET_NAME" = "" ∧
    (uploadGCS fakeNoBucket [([1, 2, 3], some ReadErr.EOF)] "fax.pdf" emptyState).2.trace.take 2 =
      [.newClient Background none, .newWriter "" "fax.pdf" actCtx] ∧
    (deleteGCS fakeNoBucket "fax.pdf" emptyState).1 =
      some "Object(\"fax.pdf\").Delete: storage: bucket name is empty" ∧
    (deleteGCS fakeNoBucket "fax.pdf" emptyState).2.trace =
      [.newClient Background none,
        .delete "" "fax.pdf" actCtx (some "storage: bucket name is empty"),
        .cancel, .clientClose] ∧
    (getSignedUrl fakeNoBucket "fax.pdf" emptyState).1 =
      ("https://storage.googleapis.com//fax.pdf", none) ∧
    (getSignedUrl fakeNoBucket "fax.pdf" emptyState).2.trace =
      [.readFile "key.json" none, .parseKey none,
        .signedURL "" "fax.pdf" (signOpts fakeNoBucket ⟨"fax@example.com", [1, 2, 3]⟩) none] := by
  decide

/-- C3, amended.  The code never checks BUCKET_NAME: when it is unset or empty every
operation runs as for any other value, with the empty string as bucket name.  uploadGCS and
deleteGCS open the connection first and return storage.NewClient: and the cause when that
fails.  Once connected, uploadGCS opens the write stream for the bucket named by the empty
string and returns io.Copy: and the cause when the copy fails, Writer.Close: and the cause
when the commit fails, and nil otherwise; deleteGCS calls obj.Delete for that bucket and,
when the call fails with a cause (for the storage library: storage: bucket name is empty),
returns that cause after Object(, the quoted name and ).Delete:, leaving the objects as
they were.  Once the credentials are read and parsed, getSignedUrl calls the signer with
the empty bucket name and returns the URL of the signer without error, or
storage.SignedURL: and the cause when the signer fails. -/
theorem missing_bucket_not_checked (fk : Fake) (src : Reader) (N : String) (s : State)
    (h : Getenv fk "BUCKET_NAME" = "") :
    (∀ c, fk.connectFault = some c →
      (uploadGCS fk src N s).1 = some ("storage.NewClient: " ++ c) ∧
      (uploadGCS fk src N s).2.since s.trace.length = [.newClient Background (some c)] ∧
      (deleteGCS fk N s).1 = some ("storage.NewClient: " ++ c) ∧
      (deleteGCS fk N s).2.since s.trace.length = [.newClient Background (some c)]) ∧
    (fk.connectFault = none →
      (∃ rest, (uploadGCS fk src N s).2.since s.trace.length =
        .newClient Background none :: .newWriter "" N actCtx :: rest) ∧
      (uploadGCS fk src N s).1 =
        match (ioCopy fk ⟨"", N, actCtx, []⟩ src s).1 with
        | some c => some ("io.Copy: " ++ c)
        | none =>
          (fk.commitFault "" N (ioCopy fk ⟨"", N, actCtx, []⟩ src s).2.1.buf).map
            fun c => "Writer.Close: " ++ c) ∧
    (fk.connectFault = none → ∀ c, fk.deleteFault "" N = some c →
      (deleteGCS fk N s).1 = some ("Object(" ++ Quote fk N ++ ").Delete: " ++ c) ∧
      (deleteGCS fk N s).2.since s.trace.length =
        [.newClient Background none, .delete "" N actCtx (some c), .cancel, .clientClose] ∧
      (deleteGCS fk N s).2.objects = s.objects) ∧
    (∀ key conf, fk.files (Getenv fk "GCS_CREDENTIALS") = .ok key → fk.parseKey key = .ok conf →
      (getSignedUrl fk N s).1 =
        (match fk.signer "" N (signOpts fk conf) with
        | .ok url => (url, none)
        | .error e => ("", some ("storage.SignedURL: " ++ e))) ∧
      ∃ err, (getSignedUrl fk N s).2.since s.trace.length =
        [.readFile (Getenv fk "GCS_CREDENTIALS") none, .parseKey none,
          .signedURL "" N (signOpts fk conf) err]) := by
  refine ⟨?_, ?_, ?_, ?_⟩
  · intro c hconn
    rw [uploadGCS_connect_fail fk src N s c hconn, deleteGCS_connect_fail fk N s c hconn]
    simp [State.since]
  · intro hconn
    constructor
    · obtain ⟨evs, _, hcase⟩ := uploadGCS_shape fk src N s hconn
      rw [h] at hcase
      rcases hcase with ⟨c, _, _, hst⟩ | ⟨_, err, _, htr⟩
      · rw [since_of_trace _ s _ (congrArg State.trace hst)]
        exact ⟨_, rfl⟩
      · rw [since_of_trace _ s _ htr]
        exact ⟨_, rfl⟩
    · have hres := uploadGCS_result fk src N s hconn
      rw [h] at hres
      exact hres
  · intro hconn c hd
    rw [← h] at hd
    rw [deleteGCS_fault fk N s c hconn hd, h]
    simp [State.since]
  · intro key conf hf hp
    rw [getSignedUrl_sign fk N s key conf hf hp, h]
    cases fk.signer "" N (signOpts fk conf) with
    | error e => exact ⟨rfl, some e, by simp [State.since]⟩
    | ok u => exact ⟨rfl, none, by simp [State.since]⟩

/-- Witness of C3, amended: without BUCKET_NAME a delete returns the error of the
library that the bucket name is empty, after the connection was opened; an upload opens
the write stream for the empty bucket name and returns the error of the commit; the signed
URL is returned without error. -/
theorem missing_bucket_not_checked_witness :
    ((deleteGCS fakeNoBucket "fax.pdf" emptyState).1 =
        some ("Object(" ++ Quote fakeNoBucket "fax.pdf" ++ ").Delete: " ++
          "storage: bucket name is empty") ∧
      (deleteGCS fakeNoBucket "fax.pdf" emptyState).2.since emptyState.trace.length =
        [.newClient Background none,
          .delete "" "fax.pdf" actCtx (some "storage: bucket name is empty"),
          .cancel, .clientClose] ∧
      (deleteGCS fakeNoBucket "fax.pdf" emptyState).2.objects = emptyState.objects) ∧
    ((∃ rest, (uploadGCS fakeNoBucket [([1, 2, 3], none)] "fax.pdf" emptyState).2.since
        emptyState.trace.length =
        .newClient Background none :: .newWriter "" "fax.pdf" actCtx :: rest) ∧
      (uploadGCS fakeNoBucket [([1, 2, 3], none)] "fax.pdf" emptyState).1 =
        some ("Writer.Close: " ++ "googleapi: Error 404: Not Found")) ∧
    (getSignedUrl fakeNoBucket "fax.pdf" emptyState).1 =
      ("https://storage.googleapis.com/" ++ "" ++ "/" ++ "fax.pdf", none) :=
  ⟨(missing_bucket_not_checked fakeNoBucket [([1, 2, 3], none)] "fax.pdf" emptyState
      (by decide)).2.2.1 rfl "storage: bucket name is empty" (by decide),
    (missing_bucket_not_checked fakeNoBucket [([1, 2, 3], none)] "fax.pdf" emptyState
      (by decide)).2.1 rfl,
    ((missing_bucket_not_checked fakeNoBucket [([1, 2, 3], none)] "fax.pdf" emptyState
      (by decide)).2.2.2 [123, 125] ⟨"fax@example.com", [1, 2, 3]⟩ rfl rfl).1⟩

/-- C4 (upload fails at the first failing phase and goes no further).  uploadGCS returns
nil exactly when the connection is established, the copy of the payload into the write
stream returns no error and the commit of what was copied is accepted.  If connecting
fails, the error is storage.NewClient: followed by the cause and the connection attempt is
the only step: no write stream is opened and the payload is not read.  If the copy fails
(in particular when a read of the payload fails, or when the first write is refused), the
error is io.Copy: followed by the cause, no commit (Writer.Close) is attempted and the
objects are untouched.  If the commit fails, the error is Writer.Close: followed by its
cause.  An error is returned exactly when one of the steps performed failed. -/
theorem uploadGCS_fails_at_first_failing_phase (fk : Fake) (src : Reader) (N : String)
    (s : State) :
    ((uploadGCS fk src N s).1 = none ↔
      fk.connectFault = none ∧
      (ioCopy fk (uploadWriter fk N) src s).1 = none ∧
      fk.commitFault (Getenv fk "BUCKET_NAME") N
        (ioCopy fk (uploadWriter fk N) src s).2.1.buf = none) ∧
    (∀ c, fk.connectFault = some c →
      (uploadGCS fk src N s).1 = some ("storage.NewClient: " ++ c) ∧
      (uploadGCS fk src N s).2.since s.trace.length = [.newClient Background (some c)] ∧
      (uploadGCS fk src N s).2.objects = s.objects) ∧
    (fk.connectFault = none → ∀ c, (ioCopy fk (uploadWriter fk N) src s).1 = some c →
      (uploadGCS fk src N s).1 = some ("io.Copy: " ++ c) ∧
      (∀ b o ctx err,
        Event.writerClose b o ctx err ∉ (uploadGCS fk src N s).2.since s.trace.length) ∧
      (uploadGCS fk src N s).2.objects = s.objects) ∧
    (fk.connectFault = none → (ioCopy fk (uploadWriter fk N) src s).1 = none →
      ∀ c, fk.commitFault (Getenv fk "BUCKET_NAME") N
          (ioCopy fk (uploadWriter fk N) src s).2.1.buf = some c →
        (uploadGCS fk src N s).1 = some ("Writer.Close: " ++ c)) ∧
    (fk.connectFault = none → (∀ k p, fk.writeFault (Getenv fk "BUCKET_NAME") N k p = none) →
      ∀ c, Reader.failure src = some c →
        (uploadGCS fk src N s).1 = some ("io.Copy: " ++ c)) ∧
    (fk.connectFault = none → ∀ p er rest c, src = (p, er) :: rest → 0 < p.length →
      fk.writeFault (Getenv fk "BUCKET_NAME") N 0 p = some c →
        (uploadGCS fk src N s).1 = some ("io.Copy: " ++ c)) ∧
    ((uploadGCS fk src N s).1.isSome ↔
      ∃ e ∈ (uploadGCS fk src N s).2.since s.trace.length, e.cause.isSome) := by
  refine ⟨?_, ?_, ?_, ?_, ?_, ?_, (uploadGCS_failed_steps fk src N s).1⟩
  · cases hconn : fk.connectFault with
    | some c0 => simp [uploadGCS_connect_fail fk src N s c0 hconn]
    | none =>
      have hres := uploadGCS_result fk src N s hconn
      simp only [uploadWriter]
      rw [hres]
      cases ioCopy fk ⟨Getenv fk "BUCKET_NAME", N, actCtx, []⟩ src s with
      | mk r1 rest =>
        cases r1 with
        | some c => simp
        | none => simp
  · intro c hconn
    rw [uploadGCS_connect_fail fk src N s c hconn]
    simp [State.since]
  · intro hconn c hc
    exact uploadGCS_copy_fail fk src N s c hconn hc
  · intro hconn hcopy c hcommit
    have hres := uploadGCS_result fk src N s hconn
    simp only [uploadWriter] at hcopy hcommit
    rw [hres, hcopy]
    simp [hcommit]
  · intro hconn hw c hf
    have hcopy : (ioCopy fk (uploadWriter fk N) src s).1 = some c := by
      rw [ioCopy_read_failure fk src (uploadWriter fk N) s hw, hf]
    exact (uploadGCS_copy_fail fk src N s c hconn hcopy).1
  · intro hconn p er rest c hsrc hp hw
    subst hsrc
    have hcopy : (ioCopy fk (uploadWriter fk N) ((p, er) :: rest) s).1 = some c :=
      ioCopy_first_write_fails fk (uploadWriter fk N) p er rest s c hp hw
    exact (uploadGCS_copy_fail fk _ N s c hconn hcopy).1

/-- Witness of C4: the upload of fax.pdf when the connection is refused, when a read of
the payload fails, when the first write times out and when the commit is refused. -/
theorem uploadGCS_fails_at_first_failing_phase_witness :
    ((uploadGCS fakeConnectDown [([1, 2, 3], none)] "fax.pdf" emptyState).1 =
        some ("storage.NewClient: " ++ "dial tcp: connection refused") ∧
      (uploadGCS fakeConnectDown [([1, 2, 3], none)] "fax.pdf" emptyState).2.since
          emptyState.trace.length =
        [.newClient Background (some "dial tcp: connection refused")] ∧
      (uploadGCS fakeConnectDown [([1, 2, 3], none)] "fax.pdf" emptyState).2.objects =
        emptyState.objects) ∧
    (uploadGCS fakeOK [([1, 2], none), ([], some (ReadErr.other "unexpected EOF"))] "fax.pdf"
        emptyState).1 = some ("io.Copy: " ++ "unexpected EOF") ∧
    (uploadGCS fakeWriteDown [([1, 2, 3], none)] "fax.pdf" emptyState).1 =
      some ("io.Copy: " ++ "context deadline exceeded") ∧
    (uploadGCS fakeCommitDown [([1, 2, 3], none)] "fax.pdf" emptyState).1 =
      some ("Writer.Close: " ++ "googleapi: Error 403: Forbidden") :=
  ⟨(uploadGCS_fails_at_first_failing_phase fakeConnectDown [([1, 2, 3], none)] "fax.pdf"
      emptyState).2.1 "dial tcp: connection refused" rfl,
    (uploadGCS_fails_at_first_failing_phase fakeOK
      [([1, 2], none), ([], some (ReadErr.other "unexpected EOF"))] "fax.pdf"
      emptyState).2.2.2.2.1 rfl (fun _ _ => rfl) "unexpected EOF" rfl,
    (uploadGCS_fails_at_first_failing_phase fakeWriteDown [([1, 2, 3], none)] "fax.pdf"
      emptyState).2.2.2.2.2.1 rfl [1, 2, 3] none [] "context deadline exceeded" rfl
      (by decide) rfl,
    (uploadGCS_fails_at_first_failing_phase fakeCommitDown [([1, 2, 3], none)] "fax.pdf"
      emptyState).2.2.2.1 rfl rfl "googleapi: Error 403: Forbidden" rfl⟩

/-- C5, counterexample.  A delete request that times out, for the object whose name is a,
a double quote, b, fails with a message that holds the name in quoted form, with a backslash before the
double quote; the name itself is not a substring of the message. -/
theorem delete_error_counterexample :
    (deleteGCS fakeDeleteTimeout "a\"b" emptyState).1 =
      some "Object(\"a\\\"b\").Delete: context deadline exceeded" ∧
    (deleteGCS fakeDeleteTimeout "a\"b" emptyState).2.trace =
      [.newClient Background none,
        .delete "faxes" "a\"b" actCtx (some "context deadline exceeded"),
        .cancel, .clientClose] ∧
    ¬ ("a\"b".data <:+: "Object(\"a\\\"b\").Delete: context deadline exceeded".data) := by
  decide

/-- C5, amended.  Whenever the delete request of deleteGCS fails with cause c, the message
returned is Object( followed by the name in the quoted form of the verb %q, then ).Delete:
and the cause; so the message contains the quoted form of the name, and it contains the
name itself whenever every character of the name is printable and is neither the double
quote nor the backslash. -/
theorem deleteGCS_error_names_quoted_object (fk : Fake) (N : String) (s : State) (c : String)
    (hfail : Event.delete (Getenv fk "BUCKET_NAME") N actCtx (some c) ∈
      (deleteGCS fk N s).2.since s.trace.length) :
    (deleteGCS fk N s).1 = some ("Object(" ++ Quote fk N ++ ").Delete: " ++ c) ∧
    (Quote fk N).data <:+: ("Object(" ++ Quote fk N ++ ").Delete: " ++ c).data ∧
    ((∀ ch ∈ N.data, IsPrint fk ch.toNat = true ∧ ch ≠ dquote ∧ ch ≠ bslash) →
      N.data <:+: ("Object(" ++ Quote fk N ++ ").Delete: " ++ c).data) := by
  refine ⟨?_, ?_, ?_⟩
  · cases hconn : fk.connectFault with
    | some c0 =>
      rw [deleteGCS_connect_fail fk N s c0 hconn] at hfail
      simp [State.since] at hfail
    | none =>
      obtain ⟨err, hres, htr, _⟩ := deleteGCS_shape fk N s hconn
      rw [since_of_trace _ s _ htr] at hfail
      simp at hfail
      rw [hres, ← hfail]
      rfl
  · exact ⟨"Object(".data, (").Delete: " ++ c).data, by simp [String.append_assoc]⟩
  · intro hplain
    refine ⟨"Object(".data ++ [dquote], [dquote] ++ (").Delete: " ++ c).data, ?_⟩
    simp [Quote, quote_plain fk N.data hplain, String.append_assoc]

/-- Witness of C5, amended: the absent object fax.pdf. -/
theorem deleteGCS_error_names_quoted_object_witness :
    (deleteGCS fakeOK "fax.pdf" emptyState).1 =
      some ("Object(" ++ Quote fakeOK "fax.pdf" ++ ").Delete: " ++ ErrObjectNotExist) ∧
    (Quote fakeOK "fax.pdf").data <:+:
      ("Object(" ++ Quote fakeOK "fax.pdf" ++ ").Delete: " ++ ErrObjectNotExist).data ∧
    ((∀ ch ∈ "fax.pdf".data, IsPrint fakeOK ch.toNat = true ∧ ch ≠ dquote ∧ ch ≠ bslash) →
      "fax.pdf".data <:+:
        ("Object(" ++ Quote fakeOK "fax.pdf" ++ ").Delete: " ++ ErrObjectNotExist).data) :=
  deleteGCS_error_names_quoted_object fakeOK "fax.pdf" emptyState ErrObjectNotExist (by decide)

/-- C6 (delete of a nonexistent object is never a silent success).  When the bucket named
by BUCKET_NAME holds no object named N, deleteGCS returns an error; and deleteGCS returns
nil exactly when the connection was established and the delete request for the object N of
the bucket named by BUCKET_NAME succeeded. -/
theorem deleteGCS_never_silent (fk : Fake) (N : String) (s : State) :
    (s.objects (Getenv fk "BUCKET_NAME") N = none → (deleteGCS fk N s).1.isSome) ∧
    ((deleteGCS fk N s).1 = none ↔
      (Event.newClient Background none ∈ (deleteGCS fk N s).2.since s.trace.length ∧
        Event.delete (Getenv fk "BUCKET_NAME") N actCtx none ∈
          (deleteGCS fk N s).2.since s.trace.length)) := by
  cases hconn : fk.connectFault with
  | some c0 =>
    rw [deleteGCS_connect_fail fk N s c0 hconn]
    simp [State.since]
  | none =>
    obtain ⟨err, hres, htr, habs⟩ := deleteGCS_shape fk N s hconn
    rw [since_of_trace _ s _ htr, hres]
    cases err with
    | none => simpa using habs
    | some c => simp

/-- C9 (connection released exactly once).  In every run of uploadGCS and of deleteGCS in
which the connection was established, the steps performed end with the Close of the
connection and contain no other Close of it; in every run in which the connection could
not be established, no Close is performed. -/
theorem connection_released_exactly_once (fk : Fake) (src : Reader) (N : String) (s : State) :
    (fk.connectFault = none →
      (∃ steps, (uploadGCS fk src N s).2.since s.trace.length = steps ++ [Event.clientClose] ∧
        Event.clientClose ∉ steps) ∧
      (∃ steps, (deleteGCS fk N s).2.since s.trace.length = steps ++ [Event.clientClose] ∧
        Event.clientClose ∉ steps)) ∧
    (fk.connectFault ≠ none →
      Event.clientClose ∉ (uploadGCS fk src N s).2.since s.trace.length ∧
      Event.clientClose ∉ (deleteGCS fk N s).2.since s.trace.length) := by
  constructor
  · intro hconn
    constructor
    · obtain ⟨evs, hcopy, hcase⟩ := uploadGCS_shape fk src N s hconn
      have hnc := copyStep_ne_clientClose _ _ _ evs hcopy
      rcases hcase with ⟨c, _, _, hst⟩ | ⟨_, err, _, htr⟩
      · rw [since_of_trace _ s _ (congrArg State.trace hst)]
        refine ⟨[.newClient Background none, .newWriter (Getenv fk "BUCKET_NAME") N actCtx] ++
          evs ++ [.cancel], by simp, ?_⟩
        simpa using hnc
      · rw [since_of_trace _ s _ htr]
        refine ⟨[.newClient Background none, .newWriter (Getenv fk "BUCKET_NAME") N actCtx] ++
          evs ++ [.writerClose (Getenv fk "BUCKET_NAME") N actCtx err, .cancel], by simp, ?_⟩
        simpa using hnc
    · obtain ⟨err, _, htr, _⟩ := deleteGCS_shape fk N s hconn
      rw [since_of_trace _ s _ htr]
      exact ⟨[.newClient Background none, .delete (Getenv fk "BUCKET_NAME") N actCtx err,
        .cancel], by simp, by simp⟩
  · intro hconn
    cases hc : fk.connectFault with
    | none => exact absurd hc hconn
    | some c0 =>
      rw [uploadGCS_connect_fail fk src N s c0 hc, deleteGCS_connect_fail fk N s c0 hc]
      simp [State.since]

/-- C7 (signed URL parameters are fixed).  Whenever the credentials file is read and
parsed, getSignedUrl performs exactly one signing step, with bucket the value of
BUCKET_NAME, object N, scheme V4, method GET, identity and private key those of the parsed
credentials and expiration the clock reading plus 600 seconds; and when the signer
succeeds the URL returned is the output of the signer, with no error. -/
theorem getSignedUrl_parameters (fk : Fake) (N : String) (s : State) (key : Bytes)
    (conf : JWTConfig)
    (hread : fk.files (Getenv fk "GCS_CREDENTIALS") = .ok key)
    (hparse : fk.parseKey key = .ok conf) :
    (∃ err, (getSignedUrl fk N s).2.since s.trace.length =
      [.readFile (Getenv fk "GCS_CREDENTIALS") none, .parseKey none,
        .signedURL (Getenv fk "BUCKET_NAME") N
          { Scheme := SigningScheme.SigningSchemeV4,
            Method := "GET",
            GoogleAccessID := conf.Email,
            PrivateKey := conf.PrivateKey,
            Expires := fk.clock + 600 * Second } err]) ∧
    (∀ url, fk.signer (Getenv fk "BUCKET_NAME") N
          { Scheme := SigningScheme.SigningSchemeV4,
            Method := "GET",
            GoogleAccessID := conf.Email,
            PrivateKey := conf.PrivateKey,
            Expires := fk.clock + 600 * Second } = .ok url →
      (getSignedUrl fk N s).1 = (url, none)) := by
  rw [getSignedUrl_sign fk N s key conf hread hparse]
  simp only [signOpts]
  generalize fk.signer _ N _ = r
  cases r with
  | error e => exact ⟨⟨some e, by simp [State.since]⟩, by simp⟩
  | ok u => exact ⟨⟨none, by simp [State.since]⟩, by simp⟩

/-- Witness of C7: the URL of fax.pdf signed with the key of fakeOK. -/
theorem getSignedUrl_parameters_witness :
    (∃ err, (getSignedUrl fakeOK "fax.pdf" emptyState).2.since emptyState.trace.length =
      [.readFile (Getenv fakeOK "GCS_CREDENTIALS") none, .parseKey none,
        .signedURL (Getenv fakeOK "BUCKET_NAME") "fax.pdf"
          { Scheme := SigningScheme.SigningSchemeV4,
            Method := "GET",
            GoogleAccessID := "fax@example.com",
            PrivateKey := [1, 2, 3],
            Expires := fakeOK.clock + 600 * Second } err]) ∧
    (∀ url, fakeOK.signer (Getenv fakeOK "BUCKET_NAME") "fax.pdf"
          { Scheme := SigningScheme.SigningSchemeV4,
            Method := "GET",
            GoogleAccessID := "fax@example.com",
            PrivateKey := [1, 2, 3],
            Expires := fakeOK.clock + 600 * Second } = .ok url →
      (getSignedUrl fakeOK "fax.pdf" emptyState).1 = (url, none)) :=
  getSignedUrl_parameters fakeOK "fax.pdf" emptyState [123, 125] ⟨"fax@example.com", [1, 2, 3]⟩
    rfl rfl

/-- C8 (signed-URL generation fails at the first failing local phase).  If the
credentials file cannot be read, getSignedUrl returns the empty URL and the error
ioutil.ReadFile: followed by the cause, and the read is its only step.  If the file is
read but does not parse, it returns the empty URL and the error google.JWTConfigFromJSON:
followed by the cause, and its steps are the read and the parse only.  It returns a
non-empty URL only when the read, the parse and the signing all succeeded, and then
without error. -/
theorem getSignedUrl_fails_at_first_failing_phase (fk : Fake) (N : String) (s : State) :
    (∀ c, fk.files (Getenv fk "GCS_CREDENTIALS") = .error c →
      (getSignedUrl fk N s).1 = ("", some ("ioutil.ReadFile: " ++ c)) ∧
      (getSignedUrl fk N s).2.since s.trace.length =
        [.readFile (Getenv fk "GCS_CREDENTIALS") (some c)]) ∧
    (∀ key c, fk.files (Getenv fk "GCS_CREDENTIALS") = .ok key → fk.parseKey key = .error c →
      (getSignedUrl fk N s).1 = ("", some ("google.JWTConfigFromJSON: " ++ c)) ∧
      (getSignedUrl fk N s).2.since s.trace.length =
        [.readFile (Getenv fk "GCS_CREDENTIALS") none, .parseKey (some c)]) ∧
    ((getSignedUrl fk N s).1.1 ≠ "" →
      ∃ key conf, fk.files (Getenv fk "GCS_CREDENTIALS") = .ok key ∧
        fk.parseKey key = .ok conf ∧
        fk.signer (Getenv fk "BUCKET_NAME") N (signOpts fk conf) =
          .ok (getSignedUrl fk N s).1.1 ∧
        (getSignedUrl fk N s).1.2 = none) := by
  refine ⟨?_, ?_, ?_⟩
  · intro c h
    rw [getSignedUrl_read_fail fk N s c h]
    simp [State.since]
  · intro key c h hp
    rw [getSignedUrl_parse_fail fk N s key c h hp]
    simp [State.since]
  · intro hne
    cases h : fk.files (Getenv fk "GCS_CREDENTIALS") with
    | error c =>
      rw [getSignedUrl_read_fail fk N s c h] at hne
      simp at hne
    | ok key =>
      cases hp : fk.parseKey key with
      | error c =>
        rw [getSignedUrl_parse_fail fk N s key c h hp] at hne
        simp at hne
      | ok conf =>
        refine ⟨key, conf, rfl, hp, ?_⟩
        rw [getSignedUrl_sign fk N s key conf h hp] at hne ⊢
        cases hs : fk.signer (Getenv fk "BUCKET_NAME") N (signOpts fk conf) with
        | error e => simp [hs] at hne
        | ok u => simp

/-- C10, counterexample.  In an upload and in a delete against the fake in which nothing
fails, not every storage step runs under a context with the deadline of 50 seconds: the
connection is established under the background context, which has no deadline. -/
theorem deadline_counterexample :
    ¬ (∀ e ∈ (uploadGCS fakeOK [([1, 2, 3], none)] "fax.pdf" emptyState).2.trace,
        ∀ c, e.ctx = some c → c.timeout = some (50 * Second)) ∧
    ¬ (∀ e ∈ (deleteGCS fakeOK "fax.pdf" emptyState).2.trace,
        ∀ c, e.ctx = some c → c.timeout = some (50 * Second)) := by
  constructor
  · intro h
    have := h (.newClient Background none) (by decide) Background rfl
    simp [Background] at this
  · intro h
    have := h (.newClient Background none) (by decide) Background rfl
    simp [Background] at this

/-- C10, amended.  In uploadGCS and in deleteGCS the first step establishes the connection
under the background context, which has no deadline; every later storage step that takes a
context (opening the write stream, each write, the commit, the delete request) runs under
one context whose deadline is 50 seconds after its creation, the same constant in both
operations and a different one from the 600 seconds of the signed-URL expiration. -/
theorem deadline_covers_act_not_connect (fk : Fake) (src : Reader) (N : String) (s : State) :
    (∃ err rest, (uploadGCS fk src N s).2.since s.trace.length =
        Event.newClient Background err :: rest) ∧
    (∃ err rest, (deleteGCS fk N s).2.since s.trace.length =
        Event.newClient Background err :: rest) ∧
    (∀ e ∈ (uploadGCS fk src N s).2.since s.trace.length, ∀ c, e.ctx = some c →
      c.timeout = if e.isConnect then none else some (50 * Second)) ∧
    (∀ e ∈ (deleteGCS fk N s).2.since s.trace.length, ∀ c, e.ctx = some c →
      c.timeout = if e.isConnect then none else some (50 * Second)) ∧
    (50 * Second ≠ 600 * Second) := by
  have hact := actCtx_timeout
  cases hconn : fk.connectFault with
  | some c0 =>
    rw [uploadGCS_connect_fail fk src N s c0 hconn, deleteGCS_connect_fail fk N s c0 hconn]
    refine ⟨⟨some c0, [], by simp [State.since]⟩, ⟨some c0, [], by simp [State.since]⟩, ?_, ?_,
      by decide⟩
    · intro e he c hc
      simp [State.since] at he
      subst he
      simp [Event.ctx] at hc
      subst hc
      simp [Event.isConnect, Background]
    · intro e he c hc
      simp [State.since] at he
      subst he
      simp [Event.ctx] at hc
      subst hc
      simp [Event.isConnect, Background]
  | none =>
    obtain ⟨derr, _, hdtr, _⟩ := deleteGCS_shape fk N s hconn
    obtain ⟨evs, hcopy, hcase⟩ := uploadGCS_shape fk src N s hconn
    have hcopyctx : ∀ e ∈ evs, ∀ c, e.ctx = some c →
        c.timeout = if e.isConnect then none else some (50 * Second) := by
      intro e he c hc
      obtain ⟨h1, h2⟩ := copyStep_ctx _ _ _ e (hcopy e he) c hc
      simp [h1, h2, hact]
    have hdel : ∀ e ∈ (deleteGCS fk N s).2.since s.trace.length, ∀ c, e.ctx = some c →
        c.timeout = if e.isConnect then none else some (50 * Second) := by
      rw [since_of_trace _ s _ hdtr]
      intro e he c hc
      simp at he
      rcases he with rfl | rfl | rfl | rfl <;>
        simp [Event.ctx] at hc <;> subst hc <;> simp [Event.isConnect, Background, hact]
    refine ⟨?_, ⟨none, _, since_of_trace _ s _ hdtr⟩, ?_, hdel, by decide⟩
    · rcases hcase with ⟨c, _, _, hst⟩ | ⟨_, err, _, htr⟩
      · exact ⟨none, _, since_of_trace _ s _ (congrArg State.trace hst)⟩
      · exact ⟨none, _, since_of_trace _ s _ htr⟩
    · rcases hcase with ⟨c, _, _, hst⟩ | ⟨_, err, _, htr⟩
      · rw [since_of_trace _ s _ (congrArg State.trace hst)]
        intro e he c hc
        simp at he
        rcases he with rfl | rfl | he | rfl | rfl
        · simp [Event.ctx] at hc; subst hc; simp [Event.isConnect, Background]
        · simp [Event.ctx] at hc; subst hc; simp [Event.isConnect, hact]
        · exact hcopyctx e he c hc
        · simp [Event.ctx] at hc
        · simp [Event.ctx] at hc
      · rw [since_of_trace _ s _ htr]
        intro e he c hc
        simp at he
        rcases he with rfl | rfl | he | rfl | rfl | rfl
        · simp [Event.ctx] at hc; subst hc; simp [Event.isConnect, Background]
        · simp [Event.ctx] at hc; subst hc; simp [Event.isConnect, hact]
        · exact hcopyctx e he c hc
        · simp [Event.ctx] at hc; subst hc; simp [Event.isConnect, hact]
        · simp [Event.ctx] at hc
        · simp [Event.ctx] at hc

end FaxMachine
